import Mathlib

/-!
Verification of the fms-poultry-scale core: the measurement-session
accumulator (the MeasurementScreen handlers), report finalization
(ReportScreen together with kgToGrams from the shared utils), and the
persisted sale history (src/lib/storage.ts).

Embedding conventions: JavaScript numbers are embedded as exact rationals
(weights) and integers (piece counts, timestamps); a NaN produced by
parseFloat / parseInt is embedded as Option.none.  The single AsyncStorage
key holding the sale history is embedded as a StoredData state: absent
(getItem returns null), the empty string (also falsy), a valid JSON
serialization of a list of SaleRecord, or unparseable text on which
JSON.parse throws.
-/

namespace PoultryScale

/-- MeasurementRow from src/lib/types (src/unnamed/part_000): one weighing
event with an id, weight in kilograms, piece count, and capture timestamp. -/
structure MeasurementRow where
  id : String
  weightKg : ℚ
  pcs : ℤ
  timestamp : ℤ
deriving DecidableEq

/-- SaleRecord from src/lib/types (src/unnamed/part_000): the immutable
aggregate persisted for a finished session. -/
structure SaleRecord where
  id : String
  totalWeightKg : ℚ
  totalWeightGrams : ℤ
  totalPcs : ℤ
  averageWeightKg : ℚ
  averageWeightGrams : ℤ
  rows : List MeasurementRow
  createdAt : ℤ
deriving DecidableEq

/-- The validation failure of handleAddRow (the early return after the
error haptic in src/unnamed/part_003 lines 116-148). -/
inductive ValidationError where
  | invalidInput
deriving DecidableEq

/-- The failure of handleDeleteLast on an empty session (the early return
at src/unnamed/part_003 line 151). -/
inductive EmptySessionError where
  | emptySession
deriving DecidableEq

/-- Running total weight of the session rows, as MeasurementScreen computes
it: rows.reduce((sum, r) => sum + r.weightKg, 0). -/
def totalWeight (rows : List MeasurementRow) : ℚ :=
  rows.foldl (fun sum r => sum + r.weightKg) 0

/-- Running total piece count: rows.reduce((sum, r) => sum + r.pcs, 0). -/
def totalPcs (rows : List MeasurementRow) : ℤ :=
  rows.foldl (fun sum r => sum + r.pcs) 0

/-- Running average: totalPcs > 0 ? totalWeight / totalPcs : 0. -/
def avgWeight (rows : List MeasurementRow) : ℚ :=
  if 0 < totalPcs rows then totalWeight rows / (totalPcs rows : ℚ) else 0

/-- handleAddRow from MeasurementScreen (src/unnamed/part_003 lines
116-148), restricted to parse results that are NaN or finite — the
restriction of handleAddRowJS below, see handleAddRowJS_agrees_on_finite —
with none standing for NaN.  If isNaN(weight) || weight <= 0 or
isNaN(pcs) || pcs <= 0 the handler returns early (a ValidationError) and
the rows are untouched; otherwise a new row with a fresh id and the
current timestamp is prepended.  The pair returned is (the result the
caller observes, the session rows after the call). -/
def handleAddRow (weight : Option ℚ) (pcs : Option ℤ) (freshId : String)
    (now : ℤ) (rows : List MeasurementRow) :
    Except ValidationError MeasurementRow × List MeasurementRow :=
  match weight with
  | none => (Except.error ValidationError.invalidInput, rows)
  | some w =>
    if w ≤ 0 then (Except.error ValidationError.invalidInput, rows)
    else
      match pcs with
      | none => (Except.error ValidationError.invalidInput, rows)
      | some p =>
        if p ≤ 0 then (Except.error ValidationError.invalidInput, rows)
        else
          let newRow : MeasurementRow :=
            { id := freshId, weightKg := w, pcs := p, timestamp := now }
          (Except.ok newRow, newRow :: rows)

/-- Full domain of a JavaScript parseFloat / parseInt result: NaN, one of
the two infinities (parseFloat("1e309") and parseInt of a 310-digit string
overflow the double range to +Infinity, with -Infinity for their negated
forms), or a finite value — an exact rational for parseFloat, and a
mathematical integer for parseInt, since every finite double parseInt can
produce is integral. -/
inductive Parsed (α : Type) where
  | nan
  | posInf
  | negInf
  | finite (x : α)
deriving DecidableEq

/-- JavaScript isNaN on a parse result. -/
def Parsed.isNaN {α : Type} : Parsed α → Bool
  | Parsed.nan => true
  | _ => false

/-- JavaScript comparison x <= 0 on a parse result: false for NaN (every
NaN comparison is false) and for +Infinity, true for -Infinity, and the
numeric comparison for a finite value. -/
def Parsed.leZero {α : Type} [Zero α] [LE α]
    [DecidablePred (fun x : α => x ≤ 0)] : Parsed α → Bool
  | Parsed.nan => false
  | Parsed.posInf => false
  | Parsed.negInf => true
  | Parsed.finite x => decide (x ≤ 0)

/-- A session row as the JavaScript runtime holds it: weightKg and pcs
carry whatever parseFloat / parseInt produced, infinities included. -/
structure JSRow where
  id : String
  weightKg : Parsed ℚ
  pcs : Parsed ℤ
  timestamp : ℤ
deriving DecidableEq

/-- handleAddRow over the full domain of parseFloat / parseInt results
(src/unnamed/part_003 lines 116-148): the two guards are exactly the
source's isNaN(weight) || weight <= 0 and isNaN(pcs) || pcs <= 0, and on
acceptance the parsed values go into the new row verbatim.  Note that
+Infinity passes both guards. -/
def handleAddRowJS (weight : Parsed ℚ) (pcs : Parsed ℤ) (freshId : String)
    (now : ℤ) (rows : List JSRow) :
    Except ValidationError JSRow × List JSRow :=
  if weight.isNaN || weight.leZero then
    (Except.error ValidationError.invalidInput, rows)
  else if pcs.isNaN || pcs.leZero then
    (Except.error ValidationError.invalidInput, rows)
  else
    let newRow : JSRow :=
      { id := freshId, weightKg := weight, pcs := pcs, timestamp := now }
    (Except.ok newRow, newRow :: rows)

/-- Embedding of a finite-valued session row into the JavaScript-level row
type. -/
def MeasurementRow.toJS (r : MeasurementRow) : JSRow :=
  { id := r.id, weightKg := Parsed.finite r.weightKg,
    pcs := Parsed.finite r.pcs, timestamp := r.timestamp }

/-- A parseFloat result that is known not to be an infinity, as the
restricted handleAddRow receives it. -/
def Parsed.ofOptionQ : Option ℚ → Parsed ℚ
  | none => Parsed.nan
  | some q => Parsed.finite q

/-- A parseInt result that is known not to be an infinity, as the
restricted handleAddRow receives it. -/
def Parsed.ofOptionZ : Option ℤ → Parsed ℤ
  | none => Parsed.nan
  | some n => Parsed.finite n

/-- handleDeleteLast from MeasurementScreen (src/unnamed/part_003 lines
150-167): on an empty session the handler returns early (the
EmptySessionError outcome); otherwise setRows(prev => prev.slice(1))
removes the head row prev[0], the most recently added one. -/
def handleDeleteLast (rows : List MeasurementRow) :
    Except EmptySessionError MeasurementRow × List MeasurementRow :=
  match rows with
  | [] => (Except.error EmptySessionError.emptySession, [])
  | r :: rest => (Except.ok r, rest)

/-- One valid-call description for a sequence of handleAddRow calls: the
parsed weight and piece count plus the fresh id and timestamp the call
would stamp. -/
structure AddInput where
  weightKg : ℚ
  pcs : ℤ
  id : String
  now : ℤ

/-- The row a successful handleAddRow call builds from an input. -/
def mkRow (i : AddInput) : MeasurementRow :=
  { id := i.id, weightKg := i.weightKg, pcs := i.pcs, timestamp := i.now }

/-- Run a sequence of handleAddRow calls in order, each against the session
state the previous one left. -/
def runAdds (inputs : List AddInput) (rows : List MeasurementRow) :
    List MeasurementRow :=
  match inputs with
  | [] => rows
  | i :: rest =>
    runAdds rest (handleAddRow (some i.weightKg) (some i.pcs) i.id i.now rows).2

/-- JavaScript Math.round: round half toward positive infinity. -/
def jsRound (q : ℚ) : ℤ := ⌊q + 1 / 2⌋

/-- kgToGrams from src/unnamed/part_000 lines 5-7: Math.round(kg * 1000). -/
def kgToGrams (kg : ℚ) : ℤ := jsRound (kg * 1000)

/-- The SaleRecord ReportScreen builds (src/unnamed/part_001 lines 31-58):
totals and average are recomputed from the rows exactly as on the
measurement screen, the gram fields via kgToGrams, the id is the fresh
Crypto.randomUUID() and createdAt the captured now. -/
def finalize (rows : List MeasurementRow) (freshId : String) (now : ℤ) :
    SaleRecord :=
  let totalWeightKg : ℚ := rows.foldl (fun sum r => sum + r.weightKg) 0
  let totalPieces : ℤ := rows.foldl (fun sum r => sum + r.pcs) 0
  let avgWeightKg : ℚ :=
    if 0 < totalPieces then totalWeightKg / (totalPieces : ℚ) else 0
  { id := freshId
    totalWeightKg := totalWeightKg
    totalWeightGrams := kgToGrams totalWeightKg
    totalPcs := totalPieces
    averageWeightKg := avgWeightKg
    averageWeightGrams := kgToGrams avgWeightKg
    rows := rows
    createdAt := now }

/-- The value stored under the single AsyncStorage key
poultry_sales_history: null (never written), the empty string (falsy, so
loadSales treats it like null), a valid JSON serialization of a list of
SaleRecord, or text JSON.parse cannot parse. -/
inductive StoredData where
  | absent
  | emptyStr
  | salesJson (sales : List SaleRecord)
  | corrupt
deriving DecidableEq

/-- The exception JSON.parse throws on unparseable text. -/
inductive ParseError where
  | malformed
deriving DecidableEq

/-- loadSales from src/lib/storage.ts lines 6-10: getItem, return [] on a
falsy result, otherwise JSON.parse the text (which throws on corrupt
data; there is no try/catch).  The storage state is threaded through so
that absence of mutation is visible: loadSales only reads. -/
def loadSales (st : StoredData) :
    Except ParseError (List SaleRecord × StoredData) :=
  match st with
  | StoredData.absent => Except.ok ([], st)
  | StoredData.emptyStr => Except.ok ([], st)
  | StoredData.salesJson sales => Except.ok (sales, st)
  | StoredData.corrupt => Except.error ParseError.malformed

/-- saveSale from src/lib/storage.ts lines 12-16: load, unshift the new
sale, write the serialized list back. -/
def saveSale (sale : SaleRecord) (st : StoredData) :
    Except ParseError StoredData :=
  match loadSales st with
  | Except.error e => Except.error e
  | Except.ok (sales, _) => Except.ok (StoredData.salesJson (sale :: sales))

/-- deleteSale from src/lib/storage.ts lines 18-22: load, keep the sales
whose id differs from the argument, write the filtered list back. -/
def deleteSale (id : String) (st : StoredData) :
    Except ParseError StoredData :=
  match loadSales st with
  | Except.error e => Except.error e
  | Except.ok (sales, _) =>
    Except.ok (StoredData.salesJson (sales.filter (fun s => s.id != id)))

/-! Helper lemmas about the running totals. -/

theorem foldl_weight_shift (rows : List MeasurementRow) (a : ℚ) :
    rows.foldl (fun sum r => sum + r.weightKg) a = a + totalWeight rows := by
  induction rows generalizing a with
  | nil => simp [totalWeight]
  | cons r rows ih =>
    simp only [totalWeight, List.foldl_cons]
    rw [ih (a + r.weightKg), ih (0 + r.weightKg)]
    ring

theorem foldl_pcs_shift (rows : List MeasurementRow) (a : ℤ) :
    rows.foldl (fun sum r => sum + r.pcs) a = a + totalPcs rows := by
  induction rows generalizing a with
  | nil => simp [totalPcs]
  | cons r rows ih =>
    simp only [totalPcs, List.foldl_cons]
    rw [ih (a + r.pcs), ih (0 + r.pcs)]
    ring

theorem totalWeight_cons (r : MeasurementRow) (rows : List MeasurementRow) :
    totalWeight (r :: rows) = r.weightKg + totalWeight rows := by
  rw [totalWeight, List.foldl_cons, foldl_weight_shift]
  ring

theorem totalPcs_cons (r : MeasurementRow) (rows : List MeasurementRow) :
    totalPcs (r :: rows) = r.pcs + totalPcs rows := by
  rw [totalPcs, List.foldl_cons, foldl_pcs_shift]
  ring

theorem totalWeight_eq_sum (rows : List MeasurementRow) :
    totalWeight rows = (rows.map MeasurementRow.weightKg).sum := by
  induction rows with
  | nil => rfl
  | cons r rows ih => rw [totalWeight_cons, ih, List.map_cons, List.sum_cons]

theorem totalPcs_eq_sum (rows : List MeasurementRow) :
    totalPcs rows = (rows.map MeasurementRow.pcs).sum := by
  induction rows with
  | nil => rfl
  | cons r rows ih => rw [totalPcs_cons, ih, List.map_cons, List.sum_cons]

theorem handleAddRow_valid (w : ℚ) (p : ℤ) (freshId : String) (now : ℤ)
    (rows : List MeasurementRow) (hw : 0 < w) (hp : 0 < p) :
    handleAddRow (some w) (some p) freshId now rows =
      (Except.ok ⟨freshId, w, p, now⟩, ⟨freshId, w, p, now⟩ :: rows) := by
  simp [handleAddRow, hw.not_le, hp.not_le]

theorem runAdds_totals_general (inputs : List AddInput) (rows : List MeasurementRow)
    (h : ∀ i ∈ inputs, 0 < i.weightKg ∧ 0 < i.pcs) :
    totalWeight (runAdds inputs rows) =
      totalWeight rows + (inputs.map AddInput.weightKg).sum ∧
    totalPcs (runAdds inputs rows) =
      totalPcs rows + (inputs.map AddInput.pcs).sum := by
  induction inputs generalizing rows with
  | nil => simp [runAdds]
  | cons i rest ih =>
    have hi := h i (List.mem_cons_self i rest)
    have hrest : ∀ j ∈ rest, 0 < j.weightKg ∧ 0 < j.pcs :=
      fun j hj => h j (List.mem_cons_of_mem i hj)
    have hstep := handleAddRow_valid i.weightKg i.pcs i.id i.now rows hi.1 hi.2
    rw [runAdds, hstep]
    obtain ⟨ihw, ihp⟩ := ih (⟨i.id, i.weightKg, i.pcs, i.now⟩ :: rows) hrest
    constructor
    · rw [ihw, totalWeight_cons, List.map_cons, List.sum_cons]
      ring
    · rw [ihp, totalPcs_cons, List.map_cons, List.sum_cons]
      ring

/-- C1: for every sequence of valid addEntry calls starting from the empty
session, the running total weight equals the sum of the added weights and
the running piece count equals the sum of the added counts. -/
theorem totals_after_valid_adds (inputs : List AddInput)
    (h : ∀ i ∈ inputs, 0 < i.weightKg ∧ 0 < i.pcs) :
    totalWeight (runAdds inputs []) = (inputs.map AddInput.weightKg).sum ∧
    totalPcs (runAdds inputs []) = (inputs.map AddInput.pcs).sum := by
  have hgen := runAdds_totals_general inputs [] h
  simpa [totalWeight, totalPcs] using hgen

/-- Witness for C1 at the two concrete calls (2 kg, 3 pcs) then (3 kg, 2 pcs). -/
theorem totals_after_valid_adds_witness :
    totalWeight (runAdds [⟨2, 3, "a", 0⟩, ⟨3, 2, "b", 1⟩] []) =
      ([⟨2, 3, "a", 0⟩, ⟨3, 2, "b", 1⟩].map AddInput.weightKg).sum ∧
    totalPcs (runAdds [⟨2, 3, "a", 0⟩, ⟨3, 2, "b", 1⟩] []) =
      ([⟨2, 3, "a", 0⟩, ⟨3, 2, "b", 1⟩].map AddInput.pcs).sum :=
  totals_after_valid_adds _ (by decide)

/-- C2: handleAddRow reports a ValidationError and leaves the session rows
unchanged whenever the parsed weight is NaN or not greater than 0, or the
parsed count is NaN or not greater than 0 (this covers the instances
addEntry(0, 1), addEntry(-1, 1), addEntry(1, 0), addEntry(1.5, -3)). -/
theorem handleAddRow_rejects_invalid (weight : Option ℚ) (pcs : Option ℤ)
    (freshId : String) (now : ℤ) (rows : List MeasurementRow)
    (h : weight = none ∨ (∃ w, weight = some w ∧ w ≤ 0) ∨
      pcs = none ∨ (∃ p, pcs = some p ∧ p ≤ 0)) :
    handleAddRow weight pcs freshId now rows =
      (Except.error ValidationError.invalidInput, rows) := by
  rcases h with h | ⟨w, rfl, hw⟩ | h | ⟨p, rfl, hp⟩
  · subst h; rfl
  · simp [handleAddRow, hw]
  · subst h
    cases weight with
    | none => rfl
    | some w => by_cases hw : w ≤ 0 <;> simp [handleAddRow, hw]
  · cases weight with
    | none => rfl
    | some w => by_cases hw : w ≤ 0 <;> simp [handleAddRow, hw, hp]

/-- Witness for C2: addEntry(0, 1) against a one-row session fails and
leaves the rows unchanged. -/
theorem handleAddRow_rejects_invalid_witness :
    handleAddRow (some 0) (some 1) "w1" 5 [⟨"r", 1, 1, 0⟩] =
      (Except.error ValidationError.invalidInput, [⟨"r", 1, 1, 0⟩]) :=
  handleAddRow_rejects_invalid _ _ _ _ _ (Or.inr (Or.inl ⟨0, rfl, le_refl 0⟩))

/-- On parse results without infinities the full handler and the
restricted one agree, up to the embedding of rows. -/
theorem handleAddRowJS_agrees_on_finite (w : Option ℚ) (p : Option ℤ)
    (freshId : String) (now : ℤ) (rows : List MeasurementRow) :
    handleAddRowJS (Parsed.ofOptionQ w) (Parsed.ofOptionZ p) freshId now
        (rows.map MeasurementRow.toJS) =
      ((handleAddRow w p freshId now rows).1.map MeasurementRow.toJS,
        (handleAddRow w p freshId now rows).2.map MeasurementRow.toJS) := by
  cases w with
  | none => rfl
  | some q =>
    cases p with
    | none =>
      by_cases hq : q ≤ 0 <;>
        simp [handleAddRowJS, handleAddRow, Parsed.ofOptionQ, Parsed.ofOptionZ,
          Parsed.isNaN, Parsed.leZero, hq, Except.map]
    | some n =>
      by_cases hq : q ≤ 0 <;> by_cases hn : n ≤ 0 <;>
        simp [handleAddRowJS, handleAddRow, Parsed.ofOptionQ, Parsed.ofOptionZ,
          Parsed.isNaN, Parsed.leZero, hq, hn, MeasurementRow.toJS, Except.map]

/-- C2 counterexample: a parsed weight of +Infinity — parseFloat("1e309")
or of a 310-digit weight input — is not a finite number greater than 0,
yet it passes the guard isNaN(weight) || weight <= 0, so with count 1 the
call succeeds and appends the row: no ValidationError, and the entry list
changes. -/
theorem handleAddRow_accepts_infinite_weight :
    handleAddRowJS Parsed.posInf (Parsed.finite 1) "x" 0 [] =
      (Except.ok ⟨"x", Parsed.posInf, Parsed.finite 1, 0⟩,
        [⟨"x", Parsed.posInf, Parsed.finite 1, 0⟩]) ∧
    (handleAddRowJS Parsed.posInf (Parsed.finite 1) "x" 0 []).1 ≠
      Except.error ValidationError.invalidInput ∧
    (handleAddRowJS Parsed.posInf (Parsed.finite 1) "x" 0 []).2 ≠ [] :=
  ⟨rfl, fun h => Except.noConfusion h, fun h => List.noConfusion h⟩

/-- C2 (amended): handleAddRow fails with a ValidationError and leaves the
session's entry list unchanged whenever the parsed weight is NaN,
-Infinity or a finite value not greater than 0, or the parsed count is
NaN, -Infinity or a (finite) integer not greater than 0 — which covers
addEntry(0, 1), addEntry(-1, 1), addEntry(1, 0) and addEntry(1.5, -3);
a parse of +Infinity, however, is accepted, so the rejection does not
extend to every non-finite input. -/
theorem handleAddRowJS_rejects (weight : Parsed ℚ) (pcs : Parsed ℤ)
    (freshId : String) (now : ℤ) (rows : List JSRow)
    (h : weight = Parsed.nan ∨ weight = Parsed.negInf ∨
      (∃ w, weight = Parsed.finite w ∧ w ≤ 0) ∨
      pcs = Parsed.nan ∨ pcs = Parsed.negInf ∨
      (∃ p, pcs = Parsed.finite p ∧ p ≤ 0)) :
    handleAddRowJS weight pcs freshId now rows =
      (Except.error ValidationError.invalidInput, rows) := by
  rcases h with rfl | rfl | ⟨w, rfl, hw⟩ | rfl | rfl | ⟨p, rfl, hp⟩
  · rfl
  · rfl
  · simp [handleAddRowJS, Parsed.isNaN, Parsed.leZero, hw]
  · cases weight with
    | nan => rfl
    | posInf => rfl
    | negInf => rfl
    | finite w =>
      by_cases hw : w ≤ 0 <;>
        simp [handleAddRowJS, Parsed.isNaN, Parsed.leZero, hw]
  · cases weight with
    | nan => rfl
    | posInf => rfl
    | negInf => rfl
    | finite w =>
      by_cases hw : w ≤ 0 <;>
        simp [handleAddRowJS, Parsed.isNaN, Parsed.leZero, hw]
  · cases weight with
    | nan => rfl
    | posInf => simp [handleAddRowJS, Parsed.isNaN, Parsed.leZero, hp]
    | negInf => rfl
    | finite w =>
      by_cases hw : w ≤ 0 <;>
        simp [handleAddRowJS, Parsed.isNaN, Parsed.leZero, hw, hp]

/-- Witness for the amended C2 at addEntry(0, 1) against a one-row
session: the call fails and the row list is unchanged. -/
theorem handleAddRowJS_rejects_witness :
    handleAddRowJS (Parsed.finite 0) (Parsed.finite 1) "w1" 5
        [⟨"r", Parsed.finite 1, Parsed.finite 1, 0⟩] =
      (Except.error ValidationError.invalidInput,
        [⟨"r", Parsed.finite 1, Parsed.finite 1, 0⟩]) :=
  handleAddRowJS_rejects _ _ _ _ _
    (Or.inr (Or.inr (Or.inl ⟨0, rfl, le_refl 0⟩)))

/-- C3: handleDeleteLast on an empty session fails with EmptySessionError
and changes nothing; on a non-empty session it removes and returns the head
(most recently added) row; after adding E1 then E2 the session is
[E2, E1], and deleting returns E2 and leaves only E1. -/
theorem removeMostRecent_spec (i1 i2 : AddInput) (h1w : 0 < i1.weightKg)
    (h1p : 0 < i1.pcs) (h2w : 0 < i2.weightKg) (h2p : 0 < i2.pcs) :
    handleDeleteLast [] = (Except.error EmptySessionError.emptySession, []) ∧
    (∀ (r : MeasurementRow) (rest : List MeasurementRow),
      handleDeleteLast (r :: rest) = (Except.ok r, rest)) ∧
    handleAddRow (some i1.weightKg) (some i1.pcs) i1.id i1.now [] =
      (Except.ok (mkRow i1), [mkRow i1]) ∧
    handleAddRow (some i2.weightKg) (some i2.pcs) i2.id i2.now [mkRow i1] =
      (Except.ok (mkRow i2), [mkRow i2, mkRow i1]) ∧
    handleDeleteLast [mkRow i2, mkRow i1] = (Except.ok (mkRow i2), [mkRow i1]) :=
  ⟨rfl, fun _ _ => rfl,
    handleAddRow_valid i1.weightKg i1.pcs i1.id i1.now [] h1w h1p,
    handleAddRow_valid i2.weightKg i2.pcs i2.id i2.now [mkRow i1] h2w h2p,
    rfl⟩

/-- Witness for C3 at E1 = (2 kg, 1 pc) and E2 = (3 kg, 1 pc). -/
theorem removeMostRecent_spec_witness :
    handleDeleteLast [] = (Except.error EmptySessionError.emptySession, []) ∧
    (∀ (r : MeasurementRow) (rest : List MeasurementRow),
      handleDeleteLast (r :: rest) = (Except.ok r, rest)) ∧
    handleAddRow (some 2) (some 1) "e1" 0 [] =
      (Except.ok (mkRow ⟨2, 1, "e1", 0⟩), [mkRow ⟨2, 1, "e1", 0⟩]) ∧
    handleAddRow (some 3) (some 1) "e2" 1 [mkRow ⟨2, 1, "e1", 0⟩] =
      (Except.ok (mkRow ⟨3, 1, "e2", 1⟩), [mkRow ⟨3, 1, "e2", 1⟩, mkRow ⟨2, 1, "e1", 0⟩]) ∧
    handleDeleteLast [mkRow ⟨3, 1, "e2", 1⟩, mkRow ⟨2, 1, "e1", 0⟩] =
      (Except.ok (mkRow ⟨3, 1, "e2", 1⟩), [mkRow ⟨2, 1, "e1", 0⟩]) :=
  removeMostRecent_spec ⟨2, 1, "e1", 0⟩ ⟨3, 1, "e2", 1⟩
    (by decide) (by decide) (by decide) (by decide)

/-- C4: the running average is the total weight divided by the piece count
when the count is positive, and exactly 0 when the count is 0, so the
division never runs with a zero divisor. -/
theorem avgWeight_guarded (rows : List MeasurementRow) :
    (0 < totalPcs rows → avgWeight rows = totalWeight rows / (totalPcs rows : ℚ)) ∧
    (totalPcs rows = 0 → avgWeight rows = 0) := by
  constructor
  · intro h
    rw [avgWeight, if_pos h]
  · intro h
    rw [avgWeight, if_neg]
    rw [h]
    exact lt_irrefl 0

theorem jsRound_eq (q : ℚ) (n : ℤ) (h1 : (n : ℚ) ≤ q + 1 / 2) (h2 : q + 1 / 2 < n + 1) :
    jsRound q = n :=
  Int.floor_eq_iff.mpr ⟨h1, h2⟩

/-- C5: finalize computes the total weight and piece count as sums over the
rows, the average as the guarded quotient, the gram fields by multiplying
by 1000 and rounding, and copies the rows in order; for the rows
(12.500 kg, 10) and (8.250 kg, 6) it yields total 20.750 kg (= 83/4),
16 pcs, average 1.296875 kg (= 83/64), 20750 total grams and 1297 average
grams, and for the empty row list everything is 0 and the rows are empty. -/
theorem finalize_spec (rows : List MeasurementRow) (freshId : String) (now : ℤ) :
    (finalize rows freshId now).totalWeightKg = (rows.map MeasurementRow.weightKg).sum ∧
    (finalize rows freshId now).totalPcs = (rows.map MeasurementRow.pcs).sum ∧
    (finalize rows freshId now).averageWeightKg =
      (if 0 < (finalize rows freshId now).totalPcs then
        (finalize rows freshId now).totalWeightKg /
          ((finalize rows freshId now).totalPcs : ℚ)
      else 0) ∧
    (finalize rows freshId now).totalWeightGrams =
      jsRound ((finalize rows freshId now).totalWeightKg * 1000) ∧
    (finalize rows freshId now).averageWeightGrams =
      jsRound ((finalize rows freshId now).averageWeightKg * 1000) ∧
    (finalize rows freshId now).rows = rows ∧
    (finalize rows freshId now).id = freshId ∧
    (finalize rows freshId now).createdAt = now ∧
    finalize [⟨"m2", 33/4, 6, 2⟩, ⟨"m1", 25/2, 10, 1⟩] "sale1" 1700000000000 =
      ⟨"sale1", 83/4, 20750, 16, 83/64, 1297,
        [⟨"m2", 33/4, 6, 2⟩, ⟨"m1", 25/2, 10, 1⟩], 1700000000000⟩ ∧
    (finalize [] freshId now).totalWeightKg = 0 ∧
    (finalize [] freshId now).totalPcs = 0 ∧
    (finalize [] freshId now).averageWeightKg = 0 ∧
    (finalize [] freshId now).rows = [] := by
  refine ⟨?_, ?_, rfl, rfl, rfl, rfl, rfl, rfl, ?_, rfl, rfl, rfl, rfl⟩
  · show totalWeight rows = _
    exact totalWeight_eq_sum rows
  · show totalPcs rows = _
    exact totalPcs_eq_sum rows
  · have hw : ((0 : ℚ) + 33/4) + 25/2 = 83/4 := by norm_num
    have h1 : kgToGrams (83/4 : ℚ) = 20750 := jsRound_eq _ _ (by norm_num) (by norm_num)
    have h2 : kgToGrams (83/64 : ℚ) = 1297 := jsRound_eq _ _ (by norm_num) (by norm_num)
    simp [finalize, SaleRecord.mk.injEq, hw]
    norm_num [h1, h2]

/-- C6 counterexample: two finalize calls with the same (empty) row list
and the same timestamp but the two distinct fresh ids the source's
Crypto.randomUUID() produces on successive calls yield Sales that are not
identical: the id field differs. -/
theorem finalize_fresh_id_differs :
    finalize [] "id1" 0 ≠ finalize [] "id2" 0 := fun h =>
  absurd (congrArg SaleRecord.id h) (by decide)

/-- C6 (amended): finalize is a pure function of its inputs; given the same
rows, the same timestamp and the same generated id it produces the identical
record, and every field except the fresh id depends only on the rows and the
timestamp; moreover totalWeightGrams = round(totalWeightKg * 1000). -/
theorem finalize_deterministic (rows : List MeasurementRow) (id1 id2 : String)
    (now : ℤ) :
    finalize rows id1 now = finalize rows id1 now ∧
    finalize rows id1 now = { finalize rows id2 now with id := id1 } ∧
    (finalize rows id1 now).totalWeightGrams =
      jsRound ((finalize rows id1 now).totalWeightKg * 1000) :=
  ⟨rfl, rfl, rfl⟩

/-- C7: saving a sale onto any persisted history (or onto never-written
storage) succeeds and prepends it, so a following list returns the saved
sale as its first element, deep-equal to the original; deleting that
sale's id afterwards leaves a history containing no sale with that id; and
deleting an id that is not present leaves the stored history unchanged and
does not error. -/
theorem storage_roundtrip (sale : SaleRecord) (prior : List SaleRecord)
    (otherId : String) (hid : ∀ s ∈ prior, s.id ≠ otherId) :
    saveSale sale (StoredData.salesJson prior) =
      Except.ok (StoredData.salesJson (sale :: prior)) ∧
    saveSale sale StoredData.absent = Except.ok (StoredData.salesJson [sale]) ∧
    loadSales (StoredData.salesJson (sale :: prior)) =
      Except.ok (sale :: prior, StoredData.salesJson (sale :: prior)) ∧
    (sale :: prior).head? = some sale ∧
    deleteSale sale.id (StoredData.salesJson (sale :: prior)) =
      Except.ok (StoredData.salesJson
        ((sale :: prior).filter (fun s => s.id != sale.id))) ∧
    (∀ s ∈ (sale :: prior).filter (fun s => s.id != sale.id), s.id ≠ sale.id) ∧
    deleteSale otherId (StoredData.salesJson prior) =
      Except.ok (StoredData.salesJson prior) := by
  refine ⟨rfl, rfl, rfl, rfl, rfl, ?_, ?_⟩
  · intro s hs
    simpa using (List.mem_filter.mp hs).2
  · show Except.ok _ = _
    have hfix : prior.filter (fun s => s.id != otherId) = prior :=
      List.filter_eq_self.mpr (fun s hs => bne_iff_ne.mpr (hid s hs))
    rw [hfix]

/-- Witness for C7 at a concrete sale, the empty prior history and the
absent id zz. -/
theorem storage_roundtrip_witness :
    saveSale ⟨"s1", 1, 1000, 1, 1, 1000, [], 0⟩ (StoredData.salesJson []) =
      Except.ok (StoredData.salesJson [⟨"s1", 1, 1000, 1, 1, 1000, [], 0⟩]) ∧
    saveSale ⟨"s1", 1, 1000, 1, 1, 1000, [], 0⟩ StoredData.absent =
      Except.ok (StoredData.salesJson [⟨"s1", 1, 1000, 1, 1, 1000, [], 0⟩]) ∧
    loadSales (StoredData.salesJson [⟨"s1", 1, 1000, 1, 1, 1000, [], 0⟩]) =
      Except.ok ([⟨"s1", 1, 1000, 1, 1, 1000, [], 0⟩],
        StoredData.salesJson [⟨"s1", 1, 1000, 1, 1, 1000, [], 0⟩]) ∧
    ([⟨"s1", 1, 1000, 1, 1, 1000, [], 0⟩] : List SaleRecord).head? =
      some ⟨"s1", 1, 1000, 1, 1, 1000, [], 0⟩ ∧
    deleteSale "s1" (StoredData.salesJson [⟨"s1", 1, 1000, 1, 1, 1000, [], 0⟩]) =
      Except.ok (StoredData.salesJson
        (([⟨"s1", 1, 1000, 1, 1, 1000, [], 0⟩] : List SaleRecord).filter
          (fun s => s.id != "s1"))) ∧
    (∀ s ∈ ([⟨"s1", 1, 1000, 1, 1, 1000, [], 0⟩] : List SaleRecord).filter
        (fun s => s.id != "s1"), s.id ≠ "s1") ∧
    deleteSale "zz" (StoredData.salesJson []) =
      Except.ok (StoredData.salesJson []) :=
  storage_roundtrip ⟨"s1", 1, 1000, 1, 1, 1000, [], 0⟩ [] "zz" (by simp)

/-- C8: listing on storage that was never written returns the empty list
rather than an error, and loadSales never changes the stored state. -/
theorem loadSales_fresh_empty_and_readonly (st st' : StoredData)
    (sales : List SaleRecord) (h : loadSales st = Except.ok (sales, st')) :
    loadSales StoredData.absent = Except.ok ([], StoredData.absent) ∧
    st' = st := by
  refine ⟨rfl, ?_⟩
  cases st <;> simp_all [loadSales]
  simp [← h.1, ← h.2]

/-- Witness for C8 at the empty-string stored state. -/
theorem loadSales_fresh_empty_and_readonly_witness :
    loadSales StoredData.absent = Except.ok ([], StoredData.absent) ∧
    StoredData.emptyStr = StoredData.emptyStr :=
  loadSales_fresh_empty_and_readonly StoredData.emptyStr StoredData.emptyStr [] rfl

/-- C9 counterexample: on unparseable stored text the read operation does
not fall back to the empty collection: JSON.parse has no try/catch around
it in loadSales, so the parse failure propagates to the caller. -/
theorem loadSales_corrupt_errors :
    loadSales StoredData.corrupt = Except.error ParseError.malformed := rfl

/-- C9 (amended): absent or empty stored text is read as the empty
collection, but a corrupt/unparseable stored collection makes loadSales —
and saveSale and deleteSale, which read through it — propagate the parse
failure to the caller; there is no fallback to the empty collection. -/
theorem loadSales_malformed_policy (sale : SaleRecord) (id : String) :
    loadSales StoredData.absent = Except.ok ([], StoredData.absent) ∧
    loadSales StoredData.emptyStr = Except.ok ([], StoredData.emptyStr) ∧
    loadSales StoredData.corrupt = Except.error ParseError.malformed ∧
    saveSale sale StoredData.corrupt = Except.error ParseError.malformed ∧
    deleteSale id StoredData.corrupt = Except.error ParseError.malformed :=
  ⟨rfl, rfl, rfl, rfl, rfl⟩

/-- C10: deleteSale removes every sale whose id matches the argument,
duplicates included, and keeps all other sales with their multiplicity and
relative order (the written-back list is a sublist of the prior history). -/
theorem deleteSale_removes_matching (id : String) (prior result : List SaleRecord)
    (h : deleteSale id (StoredData.salesJson prior) =
      Except.ok (StoredData.salesJson result)) :
    result.Sublist prior ∧
    (∀ s ∈ result, s.id ≠ id) ∧
    (∀ s : SaleRecord, s.id ≠ id → result.count s = prior.count s) ∧
    (∀ s : SaleRecord, s.id = id → result.count s = 0) := by
  have hres : result = prior.filter (fun s => s.id != id) := by
    simpa [deleteSale, loadSales] using h.symm
  subst hres
  refine ⟨List.filter_sublist _, ?_, ?_, ?_⟩
  · intro s hs
    simpa using (List.mem_filter.mp hs).2
  · intro s hs
    exact List.count_filter (by simpa using hs)
  · intro s hs
    apply List.count_eq_zero.mpr
    intro hmem
    have hne : s.id ≠ id := by simpa using (List.mem_filter.mp hmem).2
    exact hne hs

/-- Witness for C10: deleting id a from a history with two copies of an
a-sale around a b-sale keeps exactly the b-sale. -/
theorem deleteSale_removes_matching_witness :
    ([⟨"b", 0, 0, 0, 0, 0, [], 0⟩] : List SaleRecord).Sublist
      [⟨"a", 0, 0, 0, 0, 0, [], 0⟩, ⟨"b", 0, 0, 0, 0, 0, [], 0⟩,
        ⟨"a", 0, 0, 0, 0, 0, [], 0⟩] ∧
    (∀ s ∈ ([⟨"b", 0, 0, 0, 0, 0, [], 0⟩] : List SaleRecord), s.id ≠ "a") ∧
    (∀ s : SaleRecord, s.id ≠ "a" →
      ([⟨"b", 0, 0, 0, 0, 0, [], 0⟩] : List SaleRecord).count s =
        ([⟨"a", 0, 0, 0, 0, 0, [], 0⟩, ⟨"b", 0, 0, 0, 0, 0, [], 0⟩,
          ⟨"a", 0, 0, 0, 0, 0, [], 0⟩] : List SaleRecord).count s) ∧
    (∀ s : SaleRecord, s.id = "a" →
      ([⟨"b", 0, 0, 0, 0, 0, [], 0⟩] : List SaleRecord).count s = 0) :=
  deleteSale_removes_matching "a"
    [⟨"a", 0, 0, 0, 0, 0, [], 0⟩, ⟨"b", 0, 0, 0, 0, 0, [], 0⟩,
      ⟨"a", 0, 0, 0, 0, 0, [], 0⟩]
    [⟨"b", 0, 0, 0, 0, 0, [], 0⟩] rfl

end PoultryScale
